import Mathlib

/-!
Verification of the qFit rotameric side-chain fitting engine
(`src/qfit_ligand/qfit.py` and `src/qfit_ligand/structure/structure.py`)
against its natural-language specification.

The Python source is shallowly embedded: pure computations become Lean
functions, Python `float` literals become exact rationals (`ℚ`), numpy
arrays become lists, and fallible code returns `Except`.  Components of the
repository that are not present under `src/` (the solvers, the samplers
module with `ChiRotator`/`ClashDetector`, and `base_structure.py`) are
modelled from the specification where a claim needs them; each such
definition says so in its doc comment.
-/

namespace QFit

/-! ## Options (`_BaseQFitOptions.__init__`, qfit.py lines 15-36) -/

/-- Embedding of `_BaseQFitOptions` (qfit.py lines 15-36).  Only the fields
used by the fitting engine are kept.  `resolution` and `resolution_min`
default to `None`, hence `Option ℚ`. -/
structure BaseQFitOptions where
  resolution : Option ℚ := none
  resolution_min : Option ℚ := none
  clash_scaling_factor : ℚ := 4/5
  dofs_per_iteration : Nat := 2
  dofs_stepsize : ℚ := 8
  cardinality : Nat := 2
  threshold : ℚ := 3/10
  rotamer_neighborhood : ℚ := 40
deriving DecidableEq, Repr

/-! ## Derived density constants (`_BaseQFit.__init__`, qfit.py lines 74-85) -/

/-- The four constants derived in `_BaseQFit.__init__` (qfit.py lines
74-85): `_smax`, `_simple`, `_smin`, `_rmask`. -/
structure DerivedConstants where
  smax : Option ℚ
  simple : Bool
  smin : ℚ
  rmask : ℚ
deriving DecidableEq, Repr

/-- Embedding of qfit.py lines 74-85: `smax`/`simple` from `resolution`,
then `smin := 0`, `rmask := 1.5` overridden when `resolution_min` is
given. -/
def baseQFitDerived (options : BaseQFitOptions) : DerivedConstants :=
  let (smax, simple) :=
    match options.resolution with
    | some res => (some (1 / (2 * res)), false)
    | none => (none, true)
  let (smin, rmask) :=
    match options.resolution_min with
    | some rmin => (1 / (2 * rmin), rmin / 3 + 1/2)
    | none => ((0 : ℚ), (3/2 : ℚ))
  { smax := smax, simple := simple, smin := smin, rmask := rmask }

/-! ## Conformer pruning (`_BaseQFit._update_conformers`, qfit.py lines 159-167) -/

/-- A candidate coordinate array.  Its content is irrelevant to the
book-keeping claims, so it is abstract. -/
structure Coor where
  val : List (ℚ × ℚ × ℚ)
deriving DecidableEq, Repr

/-- Embedding of the loop body of `_BaseQFit._update_conformers` (qfit.py
lines 159-167): walk `zip(occupancies, coor_set)` and keep the pairs with
`q >= 0.002`.  Returns `(new_coor_set, new_occupancies)`. -/
def updateConformersLoop : List (ℚ × Coor) → List Coor × List ℚ
  | [] => ([], [])
  | (q, coor) :: rest =>
    let (coors, occs) := updateConformersLoop rest
    if q ≥ 2/1000 then (coor :: coors, q :: occs) else (coors, occs)

/-- Embedding of `_BaseQFit._update_conformers` (qfit.py lines 159-167). -/
def update_conformers (occupancies : List ℚ) (coor_set : List Coor) :
    List Coor × List ℚ :=
  updateConformersLoop (occupancies.zip coor_set)

/-! ## Outer-loop control of `_sample_sidechain` (qfit.py lines 269-355)

The loop keeps `start_chi_index` (starting at 1), computes
`end_chi_index = min(start_chi_index + dofs_per_iteration, nchi + 1)`,
processes `chi_index in range(start_chi_index, end_chi_index)`, and stops
when the last processed `chi_index` equals `nchi`; otherwise it
increments `start_chi_index` and repeats. -/

/-- `end_chi_index` of one outer iteration (qfit.py lines 281-282). -/
def endChiIndex (nchi dofs start : Nat) : Nat :=
  min (start + dofs) (nchi + 1)

/-- The last `chi_index` processed by `for chi_index in
range(start, end_chi_index)` when that range is non-empty (qfit.py line
283). -/
def lastChiIndex (nchi dofs start : Nat) : Nat :=
  endChiIndex nchi dofs start - 1

/-- Number of outer `while True:` iterations of `_sample_sidechain`
(qfit.py lines 280-355) when entered with `start_chi_index = start`: one
iteration, plus the rest unless the termination test
`chi_index == self.residue.nchi` (line 352) fires.  The extra disjunct
`nchi ≤ start` makes the recursion total; for `dofs ≥ 1` it is implied by
the first disjunct whenever it fires first (see `outerIterationsFrom_eq`),
so it never alters the count on the claim's domain. -/
def outerIterationsFrom (nchi dofs start : Nat) : Nat :=
  if h : lastChiIndex nchi dofs start = nchi ∨ nchi ≤ start then 1
  else 1 + outerIterationsFrom nchi dofs (start + 1)
termination_by nchi - start
decreasing_by
  push_neg at h
  omega

/-- The outer-iteration count of `_sample_sidechain`, which starts with
`start_chi_index = 1` (qfit.py line 271). -/
def sampleSidechainOuterIterations (nchi dofs : Nat) : Nat :=
  outerIterationsFrom nchi dofs 1

/-- With `dofs ≥ 1` the termination test fires exactly when
`start ≥ nchi + 1 - dofs`, and the remaining iteration count is
`max start (nchi + 1 - dofs) - start + 1`. -/
theorem outerIterationsFrom_eq (nchi dofs : Nat) (hd : 1 ≤ dofs) :
    ∀ start, 1 ≤ start → start ≤ nchi →
      outerIterationsFrom nchi dofs start =
        max start (nchi + 1 - dofs) - start + 1 := by
  intro start
  induction start using outerIterationsFrom.induct nchi dofs with
  | case1 start h =>
    intro hs hsn
    rw [outerIterationsFrom, dif_pos h]
    rcases h with h | h
    · unfold lastChiIndex endChiIndex at h
      omega
    · omega
  | case2 start h ih =>
    intro hs hsn
    have h' := h
    push_neg at h'
    obtain ⟨hlast, hlt⟩ := h'
    unfold lastChiIndex endChiIndex at hlast
    rw [outerIterationsFrom, dif_neg h]
    rw [ih (by omega) (by omega)]
    omega

/-! ## Error check after chi expansion (qfit.py lines 336-339) -/

/-- The message of qfit.py line 338. -/
def noConformersMsg : String :=
  "No conformers could be generated. Check for initial clashes."

/-- Embedding of qfit.py lines 336-339: after line 333 has replaced
`self._coor_set` by the newly generated list, `if not self._coor_set:`
raises `RuntimeError(msg)`.  The loop counter `iteration` (lines 279, 354)
is in scope at this point but does not flow into the message. -/
def checkNewConformers (iteration : Nat) (new_coor_set : List Coor) :
    Except String (List Coor) :=
  if new_coor_set = [] then .error noConformersMsg else .ok new_coor_set

/-! ## Solver phase of one outer iteration (qfit.py lines 142-153, 340-349) -/

/-- One solver step as observed from the outside. -/
inductive SolveEvent
  | convert
  | qpSolve
  | miqpSolve (cardinality : Nat) (threshold : ℚ)
  | updateConformers
deriving DecidableEq, Repr

/-- Embedding of `_BaseQFit._solve` (qfit.py lines 142-153) as the sequence
of steps it performs: `self._convert()`; then
`do_qp = cardinality == threshold == None` (the chained comparison holds
exactly when both arguments are `None`) selects `QPSolver` or `MIQPSolver`
— the MIQP call passes the *configured* `self.options.cardinality` and
`self.options.threshold` (lines 150-151), not the function arguments —
and finally `self._update_conformers()`. -/
def solveEvents (options : BaseQFitOptions) (cardinality : Option Nat)
    (threshold : Option ℚ) : List SolveEvent :=
  [.convert] ++
    (if cardinality = none ∧ threshold = none then [.qpSolve]
     else [.miqpSolve options.cardinality options.threshold]) ++
    [.updateConformers]

/-- Embedding of qfit.py lines 340-349: the QP pass (`self._solve()`)
followed by two MIQP passes
(`self._solve(cardinality=self.options.cardinality,
threshold=self.options.threshold)` twice). -/
def sidechainSolverPhase (options : BaseQFitOptions) : List SolveEvent :=
  solveEvents options none none ++
    solveEvents options (some options.cardinality) (some options.threshold) ++
    solveEvents options (some options.cardinality) (some options.threshold)

/-! ## Candidate-set state (qfit.py lines 71-72, 297-333, 142-167) -/

/-- The fitter's candidate bookkeeping: `_coor_set` and `_occupancies`
(qfit.py lines 71-72). -/
structure FitState where
  coor_set : List Coor
  occupancies : List ℚ
deriving DecidableEq, Repr

/-- Initial candidate state (qfit.py lines 71-72):
`[self.conformer.coor]` and `[1.0]`. -/
def initFitState (c0 : Coor) : FitState :=
  { coor_set := [c0], occupancies := [1] }

/-- One chi-expansion step (qfit.py lines 297-333): `new_coor_set` is
built by iterating over the current `self._coor_set` and appending, for
each coordinate array, the accepted perturbed copies; line 333 then
**replaces** `self._coor_set` with it.  `self._occupancies` is not
touched.  `sample` abstracts lines 301-332 (rotamer matching, `set_chi`,
deduplication and the clash tests), which call `ChiRotator` and
`ClashDetector` from the samplers module, not under src/; only the shape
of the bookkeeping — read `coor_set`, write `coor_set`, leave
`occupancies` alone — is used by the theorems below. -/
def chiExpansionStep (sample : Coor → List Coor) (s : FitState) : FitState :=
  { s with coor_set := s.coor_set.flatMap sample }

/-- The state update of `_BaseQFit._solve` (qfit.py lines 142-153):
`self._occupancies = solver.weights` followed by
`self._update_conformers()`.  The solvers module is not under src/;
`weights` abstracts the QP/MIQP output (modelled from the spec: §4.4, the
solver returns one nonnegative weight per model row). -/
def solvePassState (weights : List ℚ) (s : FitState) : FitState :=
  let s' : FitState := { s with occupancies := weights }
  let result := update_conformers s'.occupancies s'.coor_set
  { coor_set := result.1, occupancies := result.2 }

/-- The parallel-lists invariant of the spec's candidate set (§3): equal
lengths and weights in `[0, 1]`. -/
def candidateInvariant (s : FitState) : Prop :=
  s.coor_set.length = s.occupancies.length ∧
    ∀ q ∈ s.occupancies, 0 ≤ q ∧ q ≤ 1

instance (s : FitState) : Decidable (candidateInvariant s) := by
  unfold candidateInvariant
  infer_instance

/-! ## Helper lemmas on `update_conformers` -/

lemma updateConformersLoop_eq (l : List (ℚ × Coor)) :
    updateConformersLoop l =
      ((l.filter fun p => 2/1000 ≤ p.1).map Prod.snd,
       (l.filter fun p => 2/1000 ≤ p.1).map Prod.fst) := by
  induction l with
  | nil => simp [updateConformersLoop]
  | cons p rest ih =>
    obtain ⟨q, coor⟩ := p
    by_cases hq : (2/1000 : ℚ) ≤ q
    · simp [updateConformersLoop, ih, List.filter_cons, hq]
    · simp [updateConformersLoop, ih, List.filter_cons, hq]

lemma update_conformers_eq (occ : List ℚ) (coor_set : List Coor) :
    update_conformers occ coor_set =
      (((occ.zip coor_set).filter fun p => 2/1000 ≤ p.1).map Prod.snd,
       ((occ.zip coor_set).filter fun p => 2/1000 ≤ p.1).map Prod.fst) :=
  updateConformersLoop_eq _

lemma update_conformers_length (occ : List ℚ) (coor_set : List Coor) :
    (update_conformers occ coor_set).1.length =
      (update_conformers occ coor_set).2.length := by
  rw [update_conformers_eq]
  simp

lemma update_conformers_mem_occ (occ : List ℚ) (coor_set : List Coor) :
    ∀ q ∈ (update_conformers occ coor_set).2, q ∈ occ ∧ 2/1000 ≤ q := by
  rw [update_conformers_eq]
  intro q hq
  simp only [List.mem_map, List.mem_filter] at hq
  obtain ⟨⟨q', c⟩, ⟨hmem, hge⟩, rfl⟩ := hq
  have := List.of_mem_zip hmem
  simp only [decide_eq_true_eq] at hge
  exact ⟨this.1, hge⟩

/-! ## Completeness check in `QFitRotamericResidue.__init__` (qfit.py lines 210-224) -/

/-- The parts of a rotamer residue read by the constructor's completeness
check: `residue.id` (resi, icode), the atom-name array `residue.name`,
and the rotamer-library atom list `residue._rotamers['atoms']`. -/
structure ResidueStub where
  resid : Int × String
  names : List String
  rotamerAtoms : List String
deriving DecidableEq, Repr

/-- The message of qfit.py line 216. -/
def incompleteResidueMsg : String :=
  "Residue is incomplete. Build full sidechain for qfitting"

/-- The setup steps of `QFitRotamericResidue.__init__` after the
completeness check (qfit.py lines 219-224). -/
inductive InitStep
  | baseInit
  | setupClashDetector
  | updateTransformer
deriving DecidableEq, Repr

/-- Embedding of `QFitRotamericResidue.__init__` (qfit.py lines 210-224)
at the level of its step sequence: the completeness check (lines 213-217)
scans `residue._rotamers['atoms']` and raises `RuntimeError(msg)` at the
first name missing from `residue.name`; only when none is missing do
`super().__init__`, `self._setup_clash_detector()` and
`self._update_transformer(...)` run (lines 219-224). -/
def qfitRotamericResidueInit (residue : ResidueStub) :
    Except String (List InitStep) :=
  match residue.rotamerAtoms.find? (fun atom => !(residue.names.contains atom)) with
  | some _ => .error incompleteResidueMsg
  | none => .ok [.baseInit, .setupClashDetector, .updateTransformer]

/-! ## Claims C1, C3, C4, C5, C6, C7, C8 -/

/-- C1: for `nchi ≥ 1` and `dofs_per_iteration ≥ 1`, the side-chain
sampling loop — whose chi range is `end_chi = min(start_chi +
dofs_per_iteration, nchi + 1)` with `start_chi` starting at 1 and
incremented once per outer iteration, and which terminates exactly when
the last processed chi index equals `nchi` — performs exactly
`max(1, nchi - dofs_per_iteration + 1)` outer iterations. -/
theorem claim_C1 (nchi dofs : Nat) (h1 : 1 ≤ nchi) (h2 : 1 ≤ dofs) :
    sampleSidechainOuterIterations nchi dofs = max 1 (nchi - dofs + 1) := by
  unfold sampleSidechainOuterIterations
  rw [outerIterationsFrom_eq nchi dofs h2 1 le_rfl h1]
  omega

/-- C1 witness: for `nchi = 4` and `dofs_per_iteration = 2` the loop
performs exactly 3 outer iterations. -/
theorem claim_C1_witness : sampleSidechainOuterIterations 4 2 = 3 := by
  have h := claim_C1 4 2 (by decide) (by decide)
  simpa using h

/-- C3: after a solver pass, `_update_conformers` keeps exactly the
subsequence of candidates whose weight is `≥ 0.002`, in order, with the
occupancy list updated to the matching weights, and afterwards every
remaining weight is `≥ 0.002`. -/
theorem claim_C3 (occ : List ℚ) (coor_set : List Coor) :
    update_conformers occ coor_set =
      (((occ.zip coor_set).filter fun p => 2/1000 ≤ p.1).map Prod.snd,
       ((occ.zip coor_set).filter fun p => 2/1000 ≤ p.1).map Prod.fst) ∧
    ∀ q ∈ (update_conformers occ coor_set).2, 2/1000 ≤ q :=
  ⟨update_conformers_eq occ coor_set,
   fun q hq => (update_conformers_mem_occ occ coor_set q hq).2⟩

/-- C4 counterexample: the "no conformers" error raised when the new
candidate list is empty is the same fixed message at iteration 0 and at
iteration 7, and that message contains no digit at all — so the error is
*not* reported with the iteration index, contrary to the claim. -/
theorem claim_C4_counterexample :
    checkNewConformers 0 [] = Except.error noConformersMsg ∧
    checkNewConformers 7 [] = checkNewConformers 0 [] ∧
    noConformersMsg.data.filter Char.isDigit = [] := by
  refine ⟨rfl, rfl, by decide⟩

/-- C4 amended: in every outer iteration, after the chi-expansion step
replaces the candidate coordinate list, the fitter raises a fatal "no
conformers" error if and only if that new list is empty — but the error
carries the fixed message of line 338, which does not include the
iteration index; when the list is non-empty no error is raised and the QP
pass proceeds. -/
theorem claim_C4_amended (iteration : Nat) (new_coor_set : List Coor) :
    (new_coor_set = [] →
      checkNewConformers iteration new_coor_set = .error noConformersMsg) ∧
    (new_coor_set ≠ [] →
      checkNewConformers iteration new_coor_set = .ok new_coor_set) := by
  constructor
  · intro h
    simp [checkNewConformers, h]
  · intro h
    simp [checkNewConformers, h]

/-- C4 witness: concrete instances of both directions. -/
theorem claim_C4_witness :
    checkNewConformers 3 [] = .error noConformersMsg ∧
    checkNewConformers 3 [⟨[]⟩] = .ok [⟨[]⟩] :=
  ⟨(claim_C4_amended 3 []).1 rfl,
   (claim_C4_amended 3 [⟨[]⟩]).2 (by decide)⟩

/-- C5 counterexample: for an incomplete residue the constructor raises
the same fixed message whatever the residue id — residue (12, "") and
residue (99, "A") produce identical errors, and the message contains no
digit — so the error is *not* reported with the residue id, contrary to
the claim. -/
theorem claim_C5_counterexample :
    qfitRotamericResidueInit
        ⟨(12, ""), ["N", "CA", "C"], ["N", "CA", "C", "CB", "CG"]⟩ =
      Except.error incompleteResidueMsg ∧
    qfitRotamericResidueInit
        ⟨(99, "A"), ["N", "CA", "C"], ["N", "CA", "C", "CB", "CG"]⟩ =
      qfitRotamericResidueInit
        ⟨(12, ""), ["N", "CA", "C"], ["N", "CA", "C", "CB", "CG"]⟩ ∧
    incompleteResidueMsg.data.filter Char.isDigit = [] := by
  refine ⟨rfl, rfl, by decide⟩

/-- C5 amended: for every residue lacking at least one rotamer-library
atom name, the constructor raises an error (with a fixed message, not
including the residue id) before any setup step — in particular before
the clash detector and the density transformer are initialized; for a
complete residue no such error is raised and the setup steps run. -/
theorem claim_C5_amended (residue : ResidueStub) :
    ((∃ atom ∈ residue.rotamerAtoms, atom ∉ residue.names) →
      qfitRotamericResidueInit residue = .error incompleteResidueMsg) ∧
    ((∀ atom ∈ residue.rotamerAtoms, atom ∈ residue.names) →
      qfitRotamericResidueInit residue =
        .ok [.baseInit, .setupClashDetector, .updateTransformer]) := by
  constructor
  · rintro ⟨atom, hmem, hmiss⟩
    unfold qfitRotamericResidueInit
    rcases hf : residue.rotamerAtoms.find?
        (fun atom => !(residue.names.contains atom)) with _ | a
    · rw [List.find?_eq_none] at hf
      have := hf atom hmem
      simp only [Bool.not_eq_true', Bool.not_eq_false] at this
      exact absurd (List.elem_iff.mp this) hmiss
    · rfl
  · intro hall
    unfold qfitRotamericResidueInit
    have hf : residue.rotamerAtoms.find?
        (fun atom => !(residue.names.contains atom)) = none := by
      rw [List.find?_eq_none]
      intro x hx
      simp only [Bool.not_eq_true', Bool.not_eq_false]
      exact List.elem_iff.mpr (hall x hx)
    rw [hf]

/-- C5 witness: a complete and an incomplete concrete residue. -/
theorem claim_C5_witness :
    qfitRotamericResidueInit ⟨(7, ""), ["N", "CA", "C", "CB"], ["CB"]⟩ =
      .ok [.baseInit, .setupClashDetector, .updateTransformer] ∧
    qfitRotamericResidueInit ⟨(7, ""), ["N"], ["CB"]⟩ =
      .error incompleteResidueMsg :=
  ⟨(claim_C5_amended _).2 (by decide),
   (claim_C5_amended _).1 ⟨"CB", by decide, by decide⟩⟩

/-- C6: in every outer iteration, after the single QP solve the MIQP
solve is invoked exactly twice in sequence with identical arguments (the
configured cardinality and threshold), each invocation re-rendering
(`_convert`) the then-current pruned candidate set before solving. -/
theorem claim_C6 (o : BaseQFitOptions) :
    (sidechainSolverPhase o).count (.miqpSolve o.cardinality o.threshold) = 2 ∧
    (∀ c t, SolveEvent.miqpSolve c t ∈ sidechainSolverPhase o →
      c = o.cardinality ∧ t = o.threshold) ∧
    (sidechainSolverPhase o).count .qpSolve = 1 ∧
    sidechainSolverPhase o =
      [.convert, .qpSolve, .updateConformers,
       .convert, .miqpSolve o.cardinality o.threshold, .updateConformers,
       .convert, .miqpSolve o.cardinality o.threshold, .updateConformers] := by
  have hphase : sidechainSolverPhase o =
      [.convert, .qpSolve, .updateConformers,
       .convert, .miqpSolve o.cardinality o.threshold, .updateConformers,
       .convert, .miqpSolve o.cardinality o.threshold, .updateConformers] := by
    simp [sidechainSolverPhase, solveEvents]
  refine ⟨?_, ?_, ?_, hphase⟩
  · rw [hphase]
    simp [List.count_cons]
  · rw [hphase]
    intro c t hmem
    simp only [List.mem_cons, List.mem_singleton] at hmem
    rcases hmem with h | h | h | h | h | h | h | h | h | h <;>
      first
        | (cases h; exact ⟨rfl, rfl⟩)
        | simp at h
  · rw [hphase]
    simp [List.count_cons]

/-- C7 counterexample: the claim fails at the chi-expansion step — from
the initial singleton state `([c0], [1.0])`, an expansion whose sampler
accepts two perturbed copies of the single candidate (qfit.py line 333)
leaves `_coor_set` with 2 entries but `_occupancies` with 1, so the
equal-length correspondence is not preserved by every operation. -/
theorem claim_C7_counterexample :
    ¬ candidateInvariant
        (chiExpansionStep (fun c => [c, c]) (initFitState ⟨[]⟩)) := by
  intro h
  have := h.1
  simp [chiExpansionStep, initFitState] at this

/-- C7 amended: the candidate set starts as the singleton pair
`([initial coordinates], [1.0])`, which satisfies the equal-length
correspondence with weights in `[0, 1]`; a chi-expansion step leaves the
occupancy list unchanged (so the correspondence can break until the next
solve), and every solver pass — solver weights in `[0, 1]`, one per
candidate, followed by pruning — re-establishes the invariant. -/
theorem claim_C7_amended :
    (∀ c0, candidateInvariant (initFitState c0)) ∧
    (∀ (s : FitState) (sample : Coor → List Coor),
      (chiExpansionStep sample s).occupancies = s.occupancies) ∧
    (∀ (s : FitState) (weights : List ℚ),
      weights.length = s.coor_set.length →
      (∀ w ∈ weights, 0 ≤ w ∧ w ≤ 1) →
      candidateInvariant (solvePassState weights s)) := by
  refine ⟨?_, ?_, ?_⟩
  · intro c0
    constructor
    · rfl
    · intro q hq
      simp only [initFitState, List.mem_singleton] at hq
      subst hq
      norm_num
  · intro s sample
    rfl
  · intro s weights hlen hw
    constructor
    · exact update_conformers_length weights s.coor_set
    · intro q hq
      exact hw q (update_conformers_mem_occ weights s.coor_set q hq).1

/-- C7 witness: concrete instances of the three amended parts. -/
theorem claim_C7_witness :
    candidateInvariant (initFitState ⟨[]⟩) ∧
    (chiExpansionStep (fun c => [c]) (initFitState ⟨[]⟩)).occupancies =
      (initFitState ⟨[]⟩).occupancies ∧
    candidateInvariant (solvePassState [1/2] (initFitState ⟨[]⟩)) :=
  ⟨claim_C7_amended.1 ⟨[]⟩,
   claim_C7_amended.2.1 (initFitState ⟨[]⟩) (fun c => [c]),
   claim_C7_amended.2.2 (initFitState ⟨[]⟩) [1/2] rfl (by
     intro w hw
     simp only [List.mem_singleton] at hw
     subst hw
     norm_num)⟩

/-- C8: the four derived constants `smax`, `simple`, `smin`, `rmask` are
exactly as claimed and depend only on `resolution` and
`resolution_min`. -/
theorem claim_C8 (o : BaseQFitOptions) :
    (∀ r, o.resolution = some r →
      (baseQFitDerived o).smax = some (1 / (2 * r)) ∧
      (baseQFitDerived o).simple = false) ∧
    (o.resolution = none →
      (baseQFitDerived o).smax = none ∧ (baseQFitDerived o).simple = true) ∧
    (∀ r, o.resolution_min = some r →
      (baseQFitDerived o).smin = 1 / (2 * r) ∧
      (baseQFitDerived o).rmask = r / 3 + 1/2) ∧
    (o.resolution_min = none →
      (baseQFitDerived o).smin = 0 ∧ (baseQFitDerived o).rmask = 3/2) ∧
    (∀ o' : BaseQFitOptions, o'.resolution = o.resolution →
      o'.resolution_min = o.resolution_min →
      baseQFitDerived o' = baseQFitDerived o) := by
  refine ⟨?_, ?_, ?_, ?_, ?_⟩
  · intro r hr
    rcases hm : o.resolution_min with _ | m <;> simp [baseQFitDerived, hr, hm]
  · intro hr
    rcases hm : o.resolution_min with _ | m <;> simp [baseQFitDerived, hr, hm]
  · intro r hm
    rcases hr : o.resolution with _ | rr <;> simp [baseQFitDerived, hr, hm]
  · intro hm
    rcases hr : o.resolution with _ | rr <;> simp [baseQFitDerived, hr, hm]
  · intro o' h1 h2
    simp [baseQFitDerived, h1, h2]

/-- C8 witness: concrete options with `resolution = 2` and no
`resolution_min`. -/
theorem claim_C8_witness :
    (baseQFitDerived { resolution := some 2 }).smax = some (1 / (2 * 2)) ∧
    (baseQFitDerived { resolution := some 2 }).simple = false ∧
    (baseQFitDerived { resolution := some 2 }).smin = 0 ∧
    (baseQFitDerived { resolution := some 2 }).rmask = 3/2 := by
  have h := claim_C8 { resolution := some 2 }
  exact ⟨(h.1 2 rfl).1, (h.1 2 rfl).2, (h.2.2.2.1 rfl).1, (h.2.2.2.1 rfl).2⟩

/-! ## Python error values used by the structure-hierarchy embeddings -/

/-- The Python exceptions that the embedded fragments can raise. -/
inductive PyError
  | attributeError (attr : String)
  | typeError
  | indexError
  | valueError
deriving DecidableEq, Repr

/-! ## `_Chain.__getitem__` slice branch (structure.py lines 160-188) -/

/-- A Python `slice` object: it provides exactly the attributes `start`,
`stop` and `step`, each possibly `None`. -/
structure PySlice where
  start : Option Int
  stop : Option Int
  step : Option Int
deriving DecidableEq, Repr

/-- Python attribute access on a `slice` object: any attribute other than
`start`, `stop`, `step` raises `AttributeError`. -/
def PySlice.getattr (s : PySlice) (attr : String) :
    Except PyError (Option Int) :=
  if attr = "start" then .ok s.start
  else if attr = "stop" then .ok s.stop
  else if attr = "step" then .ok s.step
  else .error (.attributeError attr)

/-- Python 3 comparison `x < n` where `x` may be `None`: comparing `None`
with an int raises `TypeError`. -/
def pyLtInt : Option Int → Int → Except PyError Bool
  | none, _ => .error .typeError
  | some v, n => .ok (v < n)

/-- Python list slicing `l[a:b]` with possibly-`None` integer bounds
(negative values count from the end, out-of-range values clamp). -/
def pySliceList {α : Type} (l : List α) (a b : Option Int) : List α :=
  let n : Int := l.length
  let norm : Option Int → Int → Int := fun o dflt =>
    match o with
    | none => dflt
    | some v => if v < 0 then max 0 (v + n) else min v n
  let lo := norm a 0
  let hi := norm b n
  (l.drop lo.toNat).take (hi - lo).toNat

/-- Embedding of the `slice` branch of `_Chain.__getitem__` (structure.py
lines 172-179): read `key.start`, read `key.end` (not an attribute of a
slice object), normalize negative bounds by `nresidues`, and return
`self._residue_groups[start: end]`.  The list of residue groups (built
lazily on lines 162-163) is a parameter; `α` stands for the
residue-group view type. -/
def chainGetitemSlice {α : Type} (residue_groups : List α) (key : PySlice) :
    Except PyError (List α) := do
  let nresidues : Int := residue_groups.length
  let start0 ← key.getattr "start"
  let endv0 ← key.getattr "end"
  let startNeg ← pyLtInt start0 0
  let start1 := if startNeg then start0.map (· + nresidues) else start0
  let endNeg ← pyLtInt endv0 0
  let endv1 := if endNeg then endv0.map (· + nresidues) else endv0
  pure (pySliceList residue_groups start1 endv1)

/-- C10: for every residue-group list and every slice argument,
`_Chain.__getitem__` raises `AttributeError` on the attribute `end`
(slice objects provide `stop`, not `end`), and never returns a list of
residue groups. -/
theorem claim_C10 {α : Type} (residue_groups : List α) (key : PySlice) :
    chainGetitemSlice residue_groups key =
      .error (.attributeError "end") ∧
    ∀ result : List α, chainGetitemSlice residue_groups key ≠ .ok result := by
  have h : chainGetitemSlice residue_groups key =
      .error (.attributeError "end") := rfl
  exact ⟨h, fun result hcontra => by rw [h] at hcontra; exact Except.noConfusion hcontra⟩

/-! ## Clash-detector setup (`QFitRotamericResidue._setup_clash_detector`,
qfit.py lines 226-257) -/

/-- One atom row of the conformer's flat arrays as read by
`_setup_clash_detector`: atom name, residue number, insertion code,
Cartesian coordinate. -/
structure CAtom where
  name : String
  resi : Int
  icode : String
  coor : ℚ × ℚ × ℚ
deriving DecidableEq, Repr

/-- A residue view into the conformer: its id `(resi, icode)` and its
selection of global atom indices.  Modelled from the spec:
`base_structure.py` (views carrying a parent-array reference and an index
selection) is not under src/; a selection is a list of global indices into
the conformer's atom array. -/
structure ResidueView where
  resi : Int
  icode : String
  selection : List Nat
deriving DecidableEq, Repr

/-- Global atom lookup (`conformer._coor[i]` etc.). -/
def getAtom (conformer : List CAtom) (i : Nat) : CAtom :=
  conformer.getD i ⟨"", 0, "", (0, 0, 0)⟩

/-- `view.select('name', v)[0]`: the first global index of the view whose
atom has name `v` (`IndexError` when there is none).  Modelled from the
spec: `select` lives in `base_structure.py`, not under src/; it filters
the view's selection by the predicate. -/
def selectNameFirst (conformer : List CAtom) (view : ResidueView)
    (v : String) : Except PyError Nat :=
  match view.selection.filter (fun i => (getAtom conformer i).name = v) with
  | [] => .error .indexError
  | i :: _ => .ok i

/-- Squared Euclidean distance.  The source compares
`np.linalg.norm(x - y) < 2`; over the rationals this is equivalent to
`distSq x y < 4`, which avoids the square root. -/
def distSq (p q : ℚ × ℚ × ℚ) : ℚ :=
  (p.1 - q.1)^2 + (p.2.1 - q.2.1)^2 + (p.2.2 - q.2.2)^2

/-- `segment.find(residue.id)` (structure.py lines 448-454): index of the
first residue of the segment with the given id, `ValueError` otherwise
(in qfit.py lines 230-235 an unfound residue leaves `index` unbound). -/
def segmentFind (residues : List ResidueView) (rid : Int × String) :
    Except PyError Nat :=
  match residues.findIdx? (fun r => (r.resi, r.icode) = rid) with
  | some n => .ok n
  | none => .error .valueError

/-- What `_setup_clash_detector` passes to `ClashDetector` (qfit.py lines
256-257): the receptor selection, the excluded cross-peptide-bond index
pairs, and the scaling factor.  `ClashDetector` itself lives in the
samplers module, not under src/. -/
structure ClashDetectorArgs where
  exclude : List (Nat × Nat)
  receptor : List Nat
  scaling_factor : ℚ
deriving DecidableEq, Repr

/-- The receptor extraction of qfit.py lines 249-255: with an insertion
code, `extract('not (resi R and icode I)')`; without,
`extract('resi', R, '!=')`.  Modelled from the spec for the `extract`
semantics (base_structure.py is not under src/): the atoms of
`conformer.parent` whose fields satisfy the selection string. -/
def receptorSelection (conformer : List CAtom) (residue : ResidueView) :
    List Nat :=
  if residue.icode ≠ "" then
    (List.range conformer.length).filter
      (fun i => ¬((getAtom conformer i).resi = residue.resi ∧
                  (getAtom conformer i).icode = residue.icode))
  else
    (List.range conformer.length).filter
      (fun i => (getAtom conformer i).resi ≠ residue.resi)

/-- Embedding of `QFitRotamericResidue._setup_clash_detector` (qfit.py
lines 226-257): find the residue's index in its segment; when a previous
residue exists and the residue's N atom is within 2 Å of the neighbor's C
atom, exclude that pair of global indices; symmetrically for the next
residue's N and the residue's C; extract the receptor; and hand all of it
to `ClashDetector` together with `options.clash_scaling_factor`. -/
def setup_clash_detector (options : BaseQFitOptions)
    (conformer : List CAtom) (segment : List ResidueView)
    (residue : ResidueView) : Except PyError ClashDetectorArgs := do
  let index ← segmentFind segment (residue.resi, residue.icode)
  let exclude1 ←
    if 0 < index then do
      let nIdx ← selectNameFirst conformer residue "N"
      let nNeighbor := segment.getD (index - 1) residue
      let cIdx ← selectNameFirst conformer nNeighbor "C"
      pure (if distSq (getAtom conformer nIdx).coor
                (getAtom conformer cIdx).coor < 4
            then [(nIdx, cIdx)] else [])
    else pure []
  let exclude2 ←
    if index < segment.length - 1 then do
      let cIdx ← selectNameFirst conformer residue "C"
      let cNeighbor := segment.getD (index + 1) residue
      let nIdx ← selectNameFirst conformer cNeighbor "N"
      pure (if distSq (getAtom conformer cIdx).coor
                (getAtom conformer nIdx).coor < 4
            then [(cIdx, nIdx)] else [])
    else pure []
  pure { exclude := exclude1 ++ exclude2,
         receptor := receptorSelection conformer residue,
         scaling_factor := options.clash_scaling_factor }

lemma exceptBind_ok {ε α β : Type} (a : α) (f : α → Except ε β) :
    (Except.ok a >>= f : Except ε β) = f a := rfl

lemma exceptBind_pure {ε α β : Type} (a : α) (f : α → Except ε β) :
    ((pure a : Except ε α) >>= f) = f a := rfl

lemma exceptMap_ok {ε α β : Type} (g : α → β) (a : α) :
    (g <$> (Except.ok a : Except ε α)) = (Except.ok (g a) : Except ε β) := rfl

lemma exceptPure_eq {ε α : Type} (a : α) :
    (pure a : Except ε α) = Except.ok a := rfl

/-- C2: the clash detector is constructed with the receptor excluding the
fitted residue's atoms, and with exclude pairs of global atom indices
covering the N–C peptide bonds to the previous and next residue exactly
when such a neighbor exists in the residue's segment and the
corresponding N/C atom pair is at distance < 2 Å (squared distance < 4);
in particular every such close cross-peptide-bond pair is excluded. -/
theorem claim_C2 (options : BaseQFitOptions) (conformer : List CAtom)
    (segment : List ResidueView) (residue : ResidueView)
    (index nIdx cIdx prevC nextN : Nat)
    (hfind : segmentFind segment (residue.resi, residue.icode) = .ok index)
    (hN : 0 < index → selectNameFirst conformer residue "N" = .ok nIdx)
    (hprevC : 0 < index →
      selectNameFirst conformer (segment.getD (index - 1) residue) "C" =
        .ok prevC)
    (hC : index < segment.length - 1 →
      selectNameFirst conformer residue "C" = .ok cIdx)
    (hnextN : index < segment.length - 1 →
      selectNameFirst conformer (segment.getD (index + 1) residue) "N" =
        .ok nextN)
    (hresAtoms : ∀ i ∈ residue.selection,
      (getAtom conformer i).resi = residue.resi ∧
      (getAtom conformer i).icode = residue.icode) :
    ∃ args : ClashDetectorArgs,
      setup_clash_detector options conformer segment residue = .ok args ∧
      (∀ p : Nat × Nat, p ∈ args.exclude ↔
        (0 < index ∧
          distSq (getAtom conformer nIdx).coor
            (getAtom conformer prevC).coor < 4 ∧ p = (nIdx, prevC)) ∨
        (index < segment.length - 1 ∧
          distSq (getAtom conformer cIdx).coor
            (getAtom conformer nextN).coor < 4 ∧ p = (cIdx, nextN))) ∧
      (∀ i ∈ residue.selection, i ∉ args.receptor) ∧
      args.scaling_factor = options.clash_scaling_factor := by
  have hreceptor : ∀ i ∈ residue.selection,
      i ∉ receptorSelection conformer residue := by
    intro i hi hmem
    obtain ⟨hresi, hicode⟩ := hresAtoms i hi
    unfold receptorSelection at hmem
    by_cases hic : residue.icode ≠ ""
    · rw [if_pos hic] at hmem
      have := (List.mem_filter.mp hmem).2
      simp only [decide_eq_true_eq] at this
      exact this ⟨hresi, hicode⟩
    · rw [if_neg hic] at hmem
      have := (List.mem_filter.mp hmem).2
      simp only [decide_eq_true_eq] at this
      exact this hresi
  by_cases hpos : 0 < index <;> by_cases hlt : index < segment.length - 1
  · refine ⟨⟨(if distSq (getAtom conformer nIdx).coor
          (getAtom conformer prevC).coor < 4 then [(nIdx, prevC)] else []) ++
        (if distSq (getAtom conformer cIdx).coor
          (getAtom conformer nextN).coor < 4 then [(cIdx, nextN)] else []),
        receptorSelection conformer residue,
        options.clash_scaling_factor⟩, ?_, ?_, hreceptor, rfl⟩
    · simp only [setup_clash_detector, hfind, exceptBind_ok, exceptBind_pure,
        exceptMap_ok, exceptPure_eq, hN hpos, hprevC hpos, hC hlt, hnextN hlt,
        if_pos hpos, if_pos hlt, List.append_nil, List.nil_append]
    · intro p
      by_cases h1 : distSq (getAtom conformer nIdx).coor
          (getAtom conformer prevC).coor < 4 <;>
        by_cases h2 : distSq (getAtom conformer cIdx).coor
          (getAtom conformer nextN).coor < 4 <;>
        simp [h1, h2, hpos, hlt]
  · refine ⟨⟨(if distSq (getAtom conformer nIdx).coor
          (getAtom conformer prevC).coor < 4 then [(nIdx, prevC)] else []),
        receptorSelection conformer residue,
        options.clash_scaling_factor⟩, ?_, ?_, hreceptor, rfl⟩
    · simp only [setup_clash_detector, hfind, exceptBind_ok, exceptBind_pure,
        exceptMap_ok, exceptPure_eq, hN hpos, hprevC hpos, if_pos hpos,
        if_neg hlt, List.append_nil, List.nil_append]
    · intro p
      by_cases h1 : distSq (getAtom conformer nIdx).coor
          (getAtom conformer prevC).coor < 4 <;>
        simp [h1, hpos, hlt]
  · refine ⟨⟨(if distSq (getAtom conformer cIdx).coor
          (getAtom conformer nextN).coor < 4 then [(cIdx, nextN)] else []),
        receptorSelection conformer residue,
        options.clash_scaling_factor⟩, ?_, ?_, hreceptor, rfl⟩
    · simp only [setup_clash_detector, hfind, exceptBind_ok, exceptBind_pure,
        exceptMap_ok, exceptPure_eq, hC hlt, hnextN hlt, if_neg hpos,
        if_pos hlt, List.append_nil, List.nil_append]
    · intro p
      by_cases h2 : distSq (getAtom conformer cIdx).coor
          (getAtom conformer nextN).coor < 4 <;>
        simp [h2, hpos, hlt]
  · refine ⟨⟨[], receptorSelection conformer residue,
        options.clash_scaling_factor⟩, ?_, ?_, hreceptor, rfl⟩
    · simp only [setup_clash_detector, hfind, exceptBind_ok, exceptBind_pure,
        exceptMap_ok, exceptPure_eq, if_neg hpos, if_neg hlt,
        List.append_nil, List.nil_append]
    · intro p
      simp [hpos, hlt]

/-- A four-atom conformer with two peptide-bonded residues, for the C2
witness: residue 1 (atoms 0, 1) and residue 2 (atoms 2, 3); the C of
residue 1 (index 1) lies 1 Å from the N of residue 2 (index 2). -/
def witnessConformer : List CAtom :=
  [⟨"N", 1, "", (0, 0, 0)⟩, ⟨"C", 1, "", (1, 0, 0)⟩,
   ⟨"N", 2, "", (2, 0, 0)⟩, ⟨"C", 2, "", (3, 0, 0)⟩]

/-- Residue 1 of the C2 witness. -/
def witnessPrevResidue : ResidueView := ⟨1, "", [0, 1]⟩

/-- Residue 2 of the C2 witness, the fitted residue. -/
def witnessResidue : ResidueView := ⟨2, "", [2, 3]⟩

/-- The segment of the C2 witness. -/
def witnessSegment : List ResidueView := [witnessPrevResidue, witnessResidue]

/-- C2 witness: the concrete two-residue segment, where the fitted
residue is last (index 1), its N is 1 Å from the previous residue's C,
and the exclude list is exactly that pair of global indices. -/
theorem claim_C2_witness :
    ∃ args : ClashDetectorArgs,
      setup_clash_detector {} witnessConformer witnessSegment
          witnessResidue = .ok args ∧
      (∀ p : Nat × Nat, p ∈ args.exclude ↔
        (0 < 1 ∧
          distSq (getAtom witnessConformer 2).coor
            (getAtom witnessConformer 1).coor < 4 ∧ p = (2, 1)) ∨
        (1 < witnessSegment.length - 1 ∧
          distSq (getAtom witnessConformer 0).coor
            (getAtom witnessConformer 0).coor < 4 ∧ p = (0, 0))) ∧
      (∀ i ∈ witnessResidue.selection, i ∉ args.receptor) ∧
      args.scaling_factor = ({} : BaseQFitOptions).clash_scaling_factor :=
  claim_C2 {} witnessConformer witnessSegment witnessResidue 1 2 0 1 0
    rfl (fun _ => rfl) (fun _ => rfl)
    (fun h => absurd h (by decide)) (fun h => absurd h (by decide))
    (by decide)

/-! ## `Structure.combine` / `Structure.reorder` (structure.py lines
116-148, 205-230, 261-275)

The structure's flat column arrays are embedded as one record per atom.
`np.unique` (chain ids, atom-group ids) and the `argsort`/`unique`
juggling for residue-group ids enumerate each distinct id exactly once;
their particular order only permutes whole blocks of `reorder`'s output
and is irrelevant to every multiset statement below, so the embeddings
enumerate ids in first-occurrence order (`List.dedup` keeps the first
occurrence of each element). -/

/-- One atom record of a structure's flat arrays: the fields read by
`combine`, `reorder` and the hierarchy builders, plus the atom name and
coordinate that the claim's record tuple mentions. -/
structure SAtom where
  chain : String
  resi : Int
  icode : String
  resn : String
  altloc : String
  name : String
  coor : ℚ × ℚ × ℚ
deriving DecidableEq, Repr

/-- Embedding of `Structure.combine` (structure.py lines 116-125):
concatenate every column of the two structures, i.e. append the record
lists. -/
def combine (s1 s2 : List SAtom) : List SAtom := s1 ++ s2

/-- The chain ids (`np.unique(self.chain)`, structure.py line 109). -/
def chainIds (s : List SAtom) : List String :=
  (s.map (·.chain)).dedup

/-- The chain selection (`select('chain', chainid)`, line 112).  Modelled
from the spec: `select` lives in base_structure.py, not under src/; it
filters the atoms by the predicate. -/
def chainSel (s : List SAtom) (c : String) : List SAtom :=
  s.filter (fun a => a.chain = c)

/-- The residue-group selection predicate of `_Chain.build_hierarchy`
(structure.py lines 224-226): `select('resi', resi)`, intersected with
`select('icode', icode)` only when `icode` is non-empty. -/
def residueGroupPred (rid : Int × String) (a : SAtom) : Bool :=
  if rid.2 = "" then a.resi = rid.1 else a.resi = rid.1 ∧ a.icode = rid.2

/-- The residue-group ids of a chain (structure.py lines 213-218): the
distinct `(resi, icode)` pairs (the source encodes them as the strings
`f"{resi}_{icode}"` and orders them by `resi`). -/
def residueGroupIds (chain : List SAtom) : List (Int × String) :=
  (chain.map fun a => (a.resi, a.icode)).dedup

/-- The residue-group selection (structure.py lines 221-228). -/
def residueGroupSel (chain : List SAtom) (rid : Int × String) : List SAtom :=
  chain.filter (residueGroupPred rid)

/-- The atom-group selection predicate of `_ResidueGroup.build_hierarchy`
(structure.py lines 267-272): `select('resn', resn)`, intersected with the
altloc selection only when `altloc` is non-empty. -/
def atomGroupPred (gid : String × String) (a : SAtom) : Bool :=
  if gid.2 = "" then a.resn = gid.1 else a.resn = gid.1 ∧ a.altloc = gid.2

/-- The atom-group ids of a residue group (structure.py line 265): the
distinct `(resn, altloc)` pairs. -/
def atomGroupIds (rg : List SAtom) : List (String × String) :=
  (rg.map fun a => (a.resn, a.altloc)).dedup

/-- The atom-group selection (structure.py lines 267-275). -/
def atomGroupSel (rg : List SAtom) (gid : String × String) : List SAtom :=
  rg.filter (atomGroupPred gid)

/-- Embedding of `Structure.reorder` (structure.py lines 138-148):
concatenate the atom-group selections over chains → residue groups →
atom groups, and reindex every column by the result. -/
def reorder (s : List SAtom) : List SAtom :=
  (chainIds s).flatMap fun c =>
    (residueGroupIds (chainSel s c)).flatMap fun rid =>
      (atomGroupIds (residueGroupSel (chainSel s c) rid)).flatMap fun gid =>
        atomGroupSel (residueGroupSel (chainSel s c) rid) gid

/-- The record tuple of claim C9: (chain, resi, icode, atom-name, altloc,
coordinate). -/
def recordTuple (a : SAtom) :
    String × Int × String × String × String × (ℚ × ℚ × ℚ) :=
  (a.chain, a.resi, a.icode, a.name, a.altloc, a.coor)

/-- Within one chain and residue number, insertion codes are not mixed
empty/non-empty (the condition the counterexample forces on the
residue-group level). -/
def noMixedIcode (s : List SAtom) : Prop :=
  ∀ a ∈ s, ∀ b ∈ s, a.chain = b.chain → a.resi = b.resi →
    (a.icode = "" ↔ b.icode = "")

/-- Within one residue group and residue name, altlocs are not mixed
empty/non-empty (the condition the counterexample forces on the
atom-group level). -/
def noMixedAltloc (s : List SAtom) : Prop :=
  ∀ a ∈ s, ∀ b ∈ s, a.chain = b.chain → a.resi = b.resi →
    a.icode = b.icode → a.resn = b.resn → (a.altloc = "" ↔ b.altloc = "")

instance (s : List SAtom) : Decidable (noMixedIcode s) := by
  unfold noMixedIcode
  infer_instance

instance (s : List SAtom) : Decidable (noMixedAltloc s) := by
  unfold noMixedAltloc
  infer_instance

/-! Partition lemmas: grouping a list by the distinct values of a key and
filtering is a permutation of the list, provided each group's selection
predicate coincides with key equality. -/

lemma sum_map_count_ite {β : Type} [DecidableEq β] (L : List β)
    (hL : L.Nodup) (b : β) (c : ℕ) (hb : b ∈ L) :
    (L.map fun v => if b = v then c else 0).sum = c := by
  induction L with
  | nil => cases hb
  | cons v L ih =>
    simp only [List.map_cons, List.sum_cons]
    rcases List.mem_cons.mp hb with rfl | hb'
    · rw [if_pos rfl]
      have hnot : b ∉ L := (List.nodup_cons.mp hL).1
      have hz : (L.map fun v => if b = v then c else 0).sum = 0 := by
        apply List.sum_eq_zero
        intro x hx
        obtain ⟨v', hv', rfl⟩ := List.mem_map.mp hx
        rw [if_neg]
        rintro rfl
        exact hnot hv'
      omega
    · have hne : b ≠ v := by
        rintro rfl
        exact (List.nodup_cons.mp hL).1 hb'
      rw [if_neg hne, ih (List.nodup_cons.mp hL).2 hb']
      omega

lemma flatMap_dedup_filter_perm {α β : Type} [DecidableEq α] [DecidableEq β]
    (l : List α) (k : α → β) (sel : β → α → Bool)
    (hsel : ∀ v ∈ (l.map k).dedup, ∀ a ∈ l, sel v a = true ↔ k a = v) :
    ((l.map k).dedup.flatMap fun v => l.filter (sel v)).Perm l := by
  rw [List.perm_iff_count]
  intro x
  rw [List.count_flatMap]
  by_cases hx : x ∈ l
  · have hkx : k x ∈ (l.map k).dedup :=
      List.mem_dedup.mpr (List.mem_map_of_mem k hx)
    have hmap : (l.map k).dedup.map (List.count x ∘ fun v => l.filter (sel v)) =
        (l.map k).dedup.map (fun v => if k x = v then l.count x else 0) := by
      apply List.map_congr_left
      intro v hv
      simp only [Function.comp_apply]
      by_cases hkv : k x = v
      · rw [if_pos hkv]
        exact List.count_filter ((hsel v hv x hx).mpr hkv)
      · rw [if_neg hkv, List.count_eq_zero]
        intro hmem
        exact hkv ((hsel v hv x hx).mp (List.mem_filter.mp hmem).2)
    rw [hmap, sum_map_count_ite _ (List.nodup_dedup _) _ _ hkx]
  · rw [List.count_eq_zero.mpr hx]
    apply List.sum_eq_zero
    intro y hy
    obtain ⟨v, hv, rfl⟩ := List.mem_map.mp hy
    simp only [Function.comp_apply]
    rw [List.count_eq_zero]
    intro hmem
    exact hx (List.mem_filter.mp hmem).1

lemma flatMap_perm_congr {α β : Type} (ids : List α) (f g : α → List β)
    (h : ∀ v ∈ ids, (f v).Perm (g v)) :
    (ids.flatMap f).Perm (ids.flatMap g) := by
  induction ids with
  | nil => rfl
  | cons v ids ih =>
    simp only [List.flatMap_cons]
    exact (h v (List.mem_cons_self v ids)).append
      (ih fun w hw => h w (List.mem_cons_of_mem v hw))

lemma atomGroups_partition (rg : List SAtom)
    (h2 : ∀ a ∈ rg, ∀ b ∈ rg, a.resn = b.resn →
      (a.altloc = "" ↔ b.altloc = "")) :
    ((atomGroupIds rg).flatMap fun gid => atomGroupSel rg gid).Perm rg := by
  unfold atomGroupIds atomGroupSel
  apply flatMap_dedup_filter_perm rg (fun a => (a.resn, a.altloc)) atomGroupPred
  intro v hv a ha
  obtain ⟨w, hw, hkw⟩ := List.mem_map.mp (List.mem_dedup.mp hv)
  unfold atomGroupPred
  by_cases hc : v.2 = ""
  · rw [if_pos hc]
    simp only [decide_eq_true_eq]
    constructor
    · intro hres
      have hwr : w.resn = v.1 := by rw [← hkw]
      have hwa : w.altloc = "" := by rw [← hc, ← hkw]
      have haa : a.altloc = "" :=
        (h2 a ha w hw (hres.trans hwr.symm)).mpr hwa
      have : (a.resn, a.altloc) = (v.1, v.2) := by
        rw [hres, haa, hc]
      simpa using this
    · intro hka
      rw [← hka]
  · rw [if_neg hc]
    simp only [decide_eq_true_eq]
    constructor
    · rintro ⟨hres, halt⟩
      rw [Prod.ext_iff]
      exact ⟨hres, halt⟩
    · intro hka
      rw [← hka]
      exact ⟨rfl, rfl⟩

lemma residueGroups_partition (ch : List SAtom)
    (h1 : ∀ a ∈ ch, ∀ b ∈ ch, a.resi = b.resi →
      (a.icode = "" ↔ b.icode = "")) :
    ((residueGroupIds ch).flatMap fun rid => residueGroupSel ch rid).Perm ch := by
  unfold residueGroupIds residueGroupSel
  apply flatMap_dedup_filter_perm ch (fun a => (a.resi, a.icode)) residueGroupPred
  intro v hv a ha
  obtain ⟨w, hw, hkw⟩ := List.mem_map.mp (List.mem_dedup.mp hv)
  unfold residueGroupPred
  by_cases hc : v.2 = ""
  · rw [if_pos hc]
    simp only [decide_eq_true_eq]
    constructor
    · intro hres
      have hwr : w.resi = v.1 := by rw [← hkw]
      have hwi : w.icode = "" := by rw [← hc, ← hkw]
      have hai : a.icode = "" :=
        (h1 a ha w hw (hres.trans hwr.symm)).mpr hwi
      have : (a.resi, a.icode) = (v.1, v.2) := by
        rw [hres, hai, hc]
      simpa using this
    · intro hka
      rw [← hka]
  · rw [if_neg hc]
    simp only [decide_eq_true_eq]
    constructor
    · rintro ⟨hres, hic⟩
      rw [Prod.ext_iff]
      exact ⟨hres, hic⟩
    · intro hka
      rw [← hka]
      exact ⟨rfl, rfl⟩

lemma chains_partition (s : List SAtom) :
    ((chainIds s).flatMap fun c => chainSel s c).Perm s := by
  unfold chainIds chainSel
  apply flatMap_dedup_filter_perm s (fun a => a.chain)
    (fun c a => a.chain = c)
  intro v _ a _
  simp only [decide_eq_true_eq]

lemma chainSel_mem (s : List SAtom) (c : String) :
    ∀ a ∈ chainSel s c, a ∈ s ∧ a.chain = c := by
  intro a ha
  have h := List.mem_filter.mp ha
  exact ⟨h.1, by simpa using h.2⟩

lemma residueGroupSel_resi (ch : List SAtom) (rid : Int × String) :
    ∀ a ∈ residueGroupSel ch rid, a ∈ ch ∧ a.resi = rid.1 := by
  intro a ha
  have h := List.mem_filter.mp ha
  refine ⟨h.1, ?_⟩
  have hp := h.2
  unfold residueGroupPred at hp
  by_cases hic : rid.2 = ""
  · rw [if_pos hic] at hp
    simpa using hp
  · rw [if_neg hic] at hp
    simp only [decide_eq_true_eq] at hp
    exact hp.1

lemma residueGroupSel_icode (ch : List SAtom) (rid : Int × String)
    (hrid : rid ∈ residueGroupIds ch)
    (h1 : ∀ a ∈ ch, ∀ b ∈ ch, a.resi = b.resi →
      (a.icode = "" ↔ b.icode = "")) :
    ∀ a ∈ residueGroupSel ch rid, a.icode = rid.2 := by
  intro a ha
  have h := List.mem_filter.mp ha
  have hp := h.2
  unfold residueGroupPred at hp
  by_cases hic : rid.2 = ""
  · rw [if_pos hic] at hp
    simp only [decide_eq_true_eq] at hp
    obtain ⟨w, hw, hkw⟩ :=
      List.mem_map.mp (List.mem_dedup.mp hrid)
    have hwr : w.resi = rid.1 := by rw [← hkw]
    have hwi : w.icode = "" := by rw [← hic, ← hkw]
    have := (h1 a h.1 w hw (hp.trans hwr.symm)).mpr hwi
    rw [this, hic]
  · rw [if_neg hic] at hp
    simp only [decide_eq_true_eq] at hp
    exact hp.2

/-- Under the two no-mixing conditions, `reorder` permutes the atom
records: every atom appears exactly once in the concatenated hierarchy
selections. -/
theorem reorder_perm (s : List SAtom) (h1 : noMixedIcode s)
    (h2 : noMixedAltloc s) : (reorder s).Perm s := by
  unfold reorder
  have hchain : ∀ c ∈ chainIds s,
      ((residueGroupIds (chainSel s c)).flatMap fun rid =>
        (atomGroupIds (residueGroupSel (chainSel s c) rid)).flatMap fun gid =>
          atomGroupSel (residueGroupSel (chainSel s c) rid) gid).Perm
        (chainSel s c) := by
    intro c _
    have h1' : ∀ a ∈ chainSel s c, ∀ b ∈ chainSel s c,
        a.resi = b.resi → (a.icode = "" ↔ b.icode = "") := by
      intro a ha b hb hres
      obtain ⟨has, hac⟩ := chainSel_mem s c a ha
      obtain ⟨hbs, hbc⟩ := chainSel_mem s c b hb
      exact h1 a has b hbs (hac.trans hbc.symm) hres
    have hinner : ∀ rid ∈ residueGroupIds (chainSel s c),
        ((atomGroupIds (residueGroupSel (chainSel s c) rid)).flatMap fun gid =>
          atomGroupSel (residueGroupSel (chainSel s c) rid) gid).Perm
          (residueGroupSel (chainSel s c) rid) := by
      intro rid hrid
      apply atomGroups_partition
      intro a ha b hb hresn
      obtain ⟨hach, hares⟩ := residueGroupSel_resi _ _ a ha
      obtain ⟨hbch, hbres⟩ := residueGroupSel_resi _ _ b hb
      obtain ⟨has, hac⟩ := chainSel_mem s c a hach
      obtain ⟨hbs, hbc⟩ := chainSel_mem s c b hbch
      have haic := residueGroupSel_icode _ _ hrid h1' a ha
      have hbic := residueGroupSel_icode _ _ hrid h1' b hb
      exact h2 a has b hbs (hac.trans hbc.symm) (hares.trans hbres.symm)
        (haic.trans hbic.symm) hresn
    exact (flatMap_perm_congr _ _ _ hinner).trans
      (residueGroups_partition _ h1')
  exact (flatMap_perm_congr _ _ _ hchain).trans (chains_partition s)

/-- C9 counterexample: combining a one-atom structure (altloc "") with a
one-atom structure (same chain, residue and residue name, altloc "A") and
reordering yields three records instead of two — the blank-altloc atom
group selects *all* atoms of the residue name, so the "A" atom is
duplicated — refuting the claim that the record multiset is preserved for
every pair of structures. -/
theorem claim_C9_counterexample :
    ¬ (((reorder (combine
          [⟨"A", 1, "", "X", "", "C1", (0, 0, 0)⟩]
          [⟨"A", 1, "", "X", "A", "C2", (1, 0, 0)⟩])).map recordTuple).Perm
        ((combine [⟨"A", 1, "", "X", "", "C1", (0, 0, 0)⟩]
          [⟨"A", 1, "", "X", "A", "C2", (1, 0, 0)⟩]).map recordTuple)) := by
  intro h
  have hlen := h.length_eq
  have hL : ((reorder (combine
      [⟨"A", 1, "", "X", "", "C1", (0, 0, 0)⟩]
      [⟨"A", 1, "", "X", "A", "C2", (1, 0, 0)⟩])).map recordTuple).length = 3 :=
    rfl
  have hR : ((combine [⟨"A", 1, "", "X", "", "C1", (0, 0, 0)⟩]
      [⟨"A", 1, "", "X", "A", "C2", (1, 0, 0)⟩]).map recordTuple).length = 2 :=
    rfl
  rw [hL, hR] at hlen
  exact absurd hlen (by decide)

/-- C9 amended: for every pair of structures in which, per chain and
residue number, insertion codes are not mixed empty/non-empty, and per
residue group and residue name, altlocs are not mixed empty/non-empty,
`combine` followed by `reorder` preserves the multiset of
(chain, resi, icode, atom-name, altloc, coordinate) records: the result
is a permutation of the concatenation, with no record added, dropped, or
modified. -/
theorem claim_C9_amended (A B : List SAtom)
    (h1 : noMixedIcode (combine A B)) (h2 : noMixedAltloc (combine A B)) :
    ((reorder (combine A B)).map recordTuple).Perm
      ((A ++ B).map recordTuple) :=
  (reorder_perm (combine A B) h1 h2).map recordTuple

/-- C9 witness: two single-conformer structures with distinct non-empty
altlocs (the shape produced by `QFitRotamericResidue.tofile`). -/
theorem claim_C9_witness :
    ((reorder (combine
        [⟨"A", 1, "", "LEU", "A", "N", (0, 0, 0)⟩]
        [⟨"A", 1, "", "LEU", "B", "N", (0, 1, 0)⟩])).map recordTuple).Perm
      ((([⟨"A", 1, "", "LEU", "A", "N", (0, 0, 0)⟩] : List SAtom) ++
        ([⟨"A", 1, "", "LEU", "B", "N", (0, 1, 0)⟩] : List SAtom)).map
          recordTuple) :=
  claim_C9_amended
    ([⟨"A", 1, "", "LEU", "A", "N", (0, 0, 0)⟩] : List SAtom)
    ([⟨"A", 1, "", "LEU", "B", "N", (0, 1, 0)⟩] : List SAtom)
    (by decide) (by decide)
